import Mathlib

/-!
Verification development for the repository-snapshot cache subsystem of the
devmatch backend.  The JavaScript source is embedded shallowly:

* `RepoSnapshot` (mongoose model, `src/models/RepoSnapshot.js`) becomes the
  structure `Repo`; the persistent collection becomes a `List Repo`, where the
  surrogate Mongo `_id` is modelled by the field `rid`.
* The GitHub remote client (`src/services/GitHubService.js`) becomes a record
  of oracle functions `GhClient`, already carrying the axios interceptor's
  translation of HTTP failures into `ApiError` values.
* Timestamps (`Date.now()`, `Date` fields) are integer milliseconds.
* Mongo's text index is an oracle `TextIndex` (match predicate and relevance
  score), since the scoring lives inside MongoDB, not in this repository.
* `Math.round` is embedded as `jsRound` (floor of x + 1/2, JavaScript's
  rounding rule), with byte ratios computed in `ℚ`.
-/

namespace DevMatch

/-- JavaScript `Math.round`: `⌊x + 0.5⌋`. -/
def jsRound (q : ℚ) : ℤ := ⌊q + 1/2⌋

/-- JavaScript string falsiness: `null`/`undefined` (here `none`) and the
empty string are falsy. -/
def strFalsy : Option String → Bool
  | none => true
  | some s => s = ""

/-- JavaScript `String.prototype.trim()`: strip leading and trailing
whitespace. -/
def jsTrim (s : String) : String :=
  ⟨(((s.data.dropWhile Char.isWhitespace).reverse.dropWhile
      Char.isWhitespace).reverse)⟩

/-- `ApiError` (`src/utils/ApiError.js`): an error value carrying an HTTP
status code and a message.  The factory helpers below mirror the static
constructors used by the services. -/
structure ApiError where
  statusCode : Nat
  message : String
deriving DecidableEq

def ApiError.notFound (msg : String) : ApiError := ⟨404, msg⟩

def ApiError.badRequest (msg : String) : ApiError := ⟨400, msg⟩

def ApiError.tooManyRequests (msg : String) : ApiError := ⟨429, msg⟩

def ApiError.unauthorized (msg : String) : ApiError := ⟨401, msg⟩

def ApiError.internal (msg : String) : ApiError := ⟨500, msg⟩

/-- One entry of the cached language breakdown (`languages` array of the
`RepoSnapshot` schema): `{ name, bytes, percentage }`. -/
structure LangEntry where
  name : String
  bytes : Nat
  percentage : ℚ
deriving DecidableEq

/-- The raw repository payload returned by the GitHub API, restricted to the
fields `updateFromGitHub` reads.  `privateFlag` embeds the JSON field
`private` (a Lean keyword); `license_spdx_id` embeds `license?.spdx_id`. -/
structure GithubData where
  id : ℤ
  owner_login : String
  owner_avatar_url : String
  name : String
  full_name : String
  description : Option String
  html_url : String
  clone_url : Option String
  language : Option String
  stargazers_count : ℤ
  forks_count : ℤ
  watchers_count : ℤ
  open_issues_count : ℤ
  privateFlag : Bool
  fork : Bool
  default_branch : String
  topics : Option (List String)
  license_spdx_id : Option String
  created_at : Option ℤ
  updated_at : Option ℤ
  pushed_at : Option ℤ
deriving DecidableEq

/-- A persisted `RepoSnapshot` document.  `rid` models the Mongo `_id`;
all other fields follow the schema in `src/models/RepoSnapshot.js`. -/
structure Repo where
  rid : Nat
  githubId : ℤ
  ownerLogin : String
  name : String
  fullName : String
  description : Option String
  htmlUrl : String
  cloneUrl : Option String
  language : Option String
  languages : List LangEntry
  stars : ℤ
  forks : ℤ
  watchers : ℤ
  openIssues : ℤ
  isPrivate : Bool
  isFork : Bool
  defaultBranch : String
  topics : List String
  license : Option String
  githubCreatedAt : Option ℤ
  githubUpdatedAt : Option ℤ
  githubPushedAt : Option ℤ
  readme : Option String
  readmeFetchedAt : Option ℤ
  aiSummary : Option String
  aiTechStack : List String
  aiComplexityLevel : Option String
  aiRoleFit : List String
  aiGeneratedAt : Option ℤ
  lastSyncedAt : Option ℤ
  syncError : Option String
deriving DecidableEq

/-- The snapshot collection: a list of documents (`rid` plays the role of
Mongo's `_id`; uniqueness of `rid` is an explicit hypothesis where needed). -/
abbrev Store := List Repo

/-- `RepoSnapshot.findById(_id)`. -/
def findById (store : Store) (rid : Nat) : Option Repo :=
  store.find? (fun r => r.rid = rid)

/-- `RepoSnapshot.findOne({ githubId })`. -/
def findByGithubId (store : Store) (githubId : ℤ) : Option Repo :=
  store.find? (fun r => r.githubId = githubId)

/-- `RepoSnapshot.findOne({ fullName })`. -/
def findByFullName (store : Store) (fullName : String) : Option Repo :=
  store.find? (fun r => r.fullName = fullName)

/-- `document.save()` on an existing document: replace the document with the
same `_id` in place. -/
def saveReplace (store : Store) (r : Repo) : Store :=
  store.map (fun x => if x.rid = r.rid then r else x)

/-- A fresh `_id` for a newly inserted document: strictly larger than every
`rid` present. -/
def freshRid (store : Store) : Nat :=
  (store.map (fun r => r.rid)).foldr max 0 + 1

/-- `new RepoSnapshot({ githubId })`: a document seeded with `githubId` and
the schema defaults (`lastSyncedAt` defaults to `Date.now`). -/
def newRepo (rid : Nat) (githubId : ℤ) (now : ℤ) : Repo :=
  { rid := rid, githubId := githubId, ownerLogin := "", name := "",
    fullName := "", description := none, htmlUrl := "", cloneUrl := none,
    language := none, languages := [], stars := 0, forks := 0, watchers := 0,
    openIssues := 0, isPrivate := false, isFork := false,
    defaultBranch := "main", topics := [], license := none,
    githubCreatedAt := none, githubUpdatedAt := none, githubPushedAt := none,
    readme := none, readmeFetchedAt := none, aiSummary := none,
    aiTechStack := [], aiComplexityLevel := none, aiRoleFit := [],
    aiGeneratedAt := none, lastSyncedAt := some now, syncError := none }

/-- `repoSnapshotSchema.methods.needsSync`: stale when `lastSyncedAt` is
absent or more than 24 hours old (`hoursSinceSync > 24`). -/
def needsSync (r : Repo) (now : ℤ) : Bool :=
  match r.lastSyncedAt with
  | none => true
  | some t => now - t > 24 * 3600000

/-- `repoSnapshotSchema.methods.updateFromGitHub`: overwrite the core fields
from the GitHub payload, stamp `lastSyncedAt` with the current time, clear
`syncError`. -/
def updateFromGitHub (r : Repo) (d : GithubData) (now : ℤ) : Repo :=
  { r with
    ownerLogin := d.owner_login
    name := d.name
    fullName := d.full_name
    description := d.description
    htmlUrl := d.html_url
    cloneUrl := d.clone_url
    language := d.language
    stars := d.stargazers_count
    forks := d.forks_count
    watchers := d.watchers_count
    openIssues := d.open_issues_count
    isPrivate := d.privateFlag
    isFork := d.fork
    defaultBranch := d.default_branch
    topics := d.topics.getD []
    license := d.license_spdx_id
    githubCreatedAt := d.created_at
    githubUpdatedAt := d.updated_at
    githubPushedAt := d.pushed_at
    lastSyncedAt := some now
    syncError := none }

/-- `RepoSnapshot.findOrCreateFromGitHub(githubId, githubData)`: find the
document by `githubId`; update it if present, otherwise insert a new one;
return the saved document together with the updated collection. -/
def findOrCreateFromGitHub (store : Store) (githubId : ℤ) (d : GithubData)
    (now : ℤ) : Repo × Store :=
  match findByGithubId store githubId with
  | some r =>
      let r' := updateFromGitHub r d now
      (r', saveReplace store r')
  | none =>
      let r' := updateFromGitHub (newRepo (freshRid store) githubId now) d now
      (r', store ++ [r'])

/-! ### Remote client (`src/services/GitHubService.js`)

The axios instance with its response interceptor is modelled as a record of
oracle functions that already return `ApiError` values (the interceptor maps
404 → `notFound`, 403 → `tooManyRequests`, 401 → `unauthorized`, other
statuses → `badRequest`, transport failure → `internal`).  `getReadme`
swallows 404 into `none` inside the client, so its oracle returns
`Except ApiError (Option String)`. -/

/-- Search payload returned by `GET /search/repositories`. -/
structure GhSearchResult where
  items : List GithubData
  total_count : Nat
deriving DecidableEq

/-- The GitHub client capabilities used by the synchronization paths. -/
structure GhClient where
  getById : ℤ → Except ApiError GithubData
  getRepository : String → String → Except ApiError GithubData
  getReadme : String → String → Except ApiError (Option String)
  getLanguages : String → String → Except ApiError (List (String × Nat))

/-! ### RepoService (`src/services/RepoService.js`) -/

/-- `RepoService.syncRepo(repo)`: fetch the repository by `fullName`; on
success apply `updateFromGitHub` and save; on failure write the error
message into `syncError`, save, and rethrow.  The returned triple is the
document after the call (the JS code mutates `repo` in place), the thrown
error if any, and the updated collection. -/
def syncRepo (store : Store) (getByFullName : String → Except ApiError GithubData)
    (now : ℤ) (r : Repo) : Repo × Option ApiError × Store :=
  match getByFullName r.fullName with
  | .ok d =>
      let r' := updateFromGitHub r d now
      (r', none, saveReplace store r')
  | .error e =>
      let r' := { r with syncError := some e.message }
      (r', some e, saveReplace store r')

/-- `RepoService.getRepoById(repoId, forceSync)`: load by `_id`; 404 when
absent; when stale (or forced), try `syncRepo` and swallow its failure,
continuing with the (mutated) document. -/
def getRepoById (store : Store) (getByFullName : String → Except ApiError GithubData)
    (now : ℤ) (rid : Nat) (forceSync : Bool) : Except ApiError Repo × Store :=
  match findById store rid with
  | none => (.error (ApiError.notFound "Repository not found"), store)
  | some r =>
      if forceSync || needsSync r now then
        let res := syncRepo store getByFullName now r
        (.ok res.1, res.2.2)
      else (.ok r, store)

/-- `RepoService.getRepoByGitHubId(githubId)`: serve the cached document when
fresh; sync (propagating failure) when stale; raise `notFound` without any
remote call when the document is absent.  The trailing `Nat` counts remote
client calls made during the operation. -/
def getRepoByGitHubId (store : Store)
    (getByFullName : String → Except ApiError GithubData) (now : ℤ)
    (githubId : ℤ) : Except ApiError Repo × Store × Nat :=
  match findByGithubId store githubId with
  | some r =>
      if !needsSync r now then (.ok r, store, 0)
      else
        let res := syncRepo store getByFullName now r
        match res.2.1 with
        | none => (.ok res.1, res.2.2, 1)
        | some e => (.error e, res.2.2, 1)
  | none =>
      (.error (ApiError.notFound
        "Repository not found. Use fullName to fetch from GitHub."), store, 0)

/-- `RepoService.loadLanguages(repoId)`: return cached languages when
non-empty; otherwise fetch the byte map, store one entry per language with
`percentage = Math.round(bytes / totalBytes * 100 * 10) / 10`, save, and
return the list; on fetch failure return the (empty) cached list. -/
def loadLanguages (store : Store) (c : GhClient) (rid : Nat) :
    Except ApiError (List LangEntry) × Store :=
  match findById store rid with
  | none => (.error (ApiError.notFound "Repository not found"), store)
  | some r =>
      if r.languages ≠ [] then (.ok r.languages, store)
      else
        match c.getLanguages r.ownerLogin r.name with
        | .ok langs =>
            let totalBytes : Nat := (langs.map Prod.snd).foldl (· + ·) 0
            let ls := langs.map (fun p =>
              { name := p.1, bytes := p.2,
                percentage :=
                  (jsRound ((p.2 : ℚ) / (totalBytes : ℚ) * 100 * 10) : ℚ) / 10 })
            (.ok ls, saveReplace store { r with languages := ls })
        | .error _ => (.ok r.languages, store)

/-- The simplified repository record `RepoService.searchRepos` maps each
search item to. -/
structure RepoSummary where
  githubId : ℤ
  name : String
  fullName : String
  ownerLogin : String
  ownerAvatar : String
  description : Option String
  htmlUrl : String
  language : Option String
  stars : ℤ
  forks : ℤ
  watchers : ℤ
  topics : List String
  isPrivate : Bool
  updatedAt : Option ℤ
deriving DecidableEq

/-- The item transformation inside `RepoService.searchRepos`. -/
def summarize (d : GithubData) : RepoSummary :=
  { githubId := d.id, name := d.name, fullName := d.full_name,
    ownerLogin := d.owner_login, ownerAvatar := d.owner_avatar_url,
    description := d.description, htmlUrl := d.html_url,
    language := d.language, stars := d.stargazers_count,
    forks := d.forks_count, watchers := d.watchers_count,
    topics := d.topics.getD [], isPrivate := d.privateFlag,
    updatedAt := d.updated_at }

/-- Options object of `RepoService.searchRepos` after its destructuring
defaults (`sort = "stars"`, `page = 1`, `limit = 10`). -/
structure SearchOptions where
  language : Option String := none
  sort : String := "stars"
  page : Nat := 1
  limit : Nat := 10
deriving DecidableEq

/-- Return value of `RepoService.searchRepos`. -/
structure SearchReposResult where
  repos : List RepoSummary
  totalCount : Nat
  page : Nat
  limit : Nat
  totalPages : Nat
deriving DecidableEq

/-- `RepoService.searchRepos(query, options)`: reject a missing query or a
query whose trimmed length is below 2 with a 400 before any remote call;
otherwise issue exactly one remote search (query extended with the
`language:` qualifier when given, `per_page = min limit 100`) and map the
items.  The trailing `Nat` counts remote client calls. -/
def searchRepos
    (search : String → Nat → Nat → Except ApiError GhSearchResult)
    (query : Option String) (opts : SearchOptions) :
    Except ApiError SearchReposResult × Nat :=
  if strFalsy query ∨ (jsTrim (query.getD "")).length < 2 then
    (.error (ApiError.badRequest "Search query must be at least 2 characters"), 0)
  else
    let q := query.getD ""
    let searchQuery := match opts.language with
      | some l => if l ≠ "" then q ++ " language:" ++ l else q
      | none => q
    (match search searchQuery opts.page (min opts.limit 100) with
     | .error e => .error e
     | .ok res =>
         .ok { repos := res.items.map summarize
               totalCount := res.total_count
               page := opts.page
               limit := opts.limit
               totalPages :=
                 (min res.total_count 1000 + opts.limit - 1) / opts.limit },
     1)

/-! ### GitHubService synchronization paths -/

/-- `full_name.split("/")` destructured into `[owner, repo]`. -/
def splitFullName (s : String) : String × String :=
  let parts := s.splitOn "/"
  (parts.getD 0 "", parts.getD 1 "")

/-- The language-percentage computation inside `GitHubService.syncRepository`:
integer `Math.round(bytes / totalBytes * 100)`, with a zero-total guard. -/
def computeSyncLanguages (langs : List (String × Nat)) : List LangEntry :=
  let totalBytes : Nat := (langs.map Prod.snd).foldl (· + ·) 0
  langs.map (fun p =>
    { name := p.1, bytes := p.2,
      percentage := if totalBytes > 0
        then (jsRound ((p.2 : ℚ) / (totalBytes : ℚ) * 100) : ℚ) else 0 })

/-- The README enrichment block of `GitHubService.syncRepository`: when the
snapshot has no README (or no fetch timestamp), try `getReadme` and fill the
fields on a truthy result, swallowing any failure. -/
def enrichReadme (c : GhClient) (now : ℤ) (owner repo : String)
    (saved : Repo) : Repo :=
  if strFalsy saved.readme ∨ saved.readmeFetchedAt = none then
    match c.getReadme owner repo with
    | .ok (some rm) =>
        if rm ≠ "" then
          { saved with readme := some rm, readmeFetchedAt := some now }
        else saved
    | _ => saved
  else saved

/-- The language enrichment block of `GitHubService.syncRepository`: when the
snapshot has no language list, try `getLanguages` and store the integer
percentages, swallowing any failure. -/
def enrichLanguages (c : GhClient) (owner repo : String) (saved : Repo) :
    Repo :=
  if saved.languages = [] then
    match c.getLanguages owner repo with
    | .ok langs => { saved with languages := computeSyncLanguages langs }
    | .error _ => saved
  else saved

/-- `GitHubService.syncRepository(owner, repo)`: fetch core data, upsert with
`findOrCreateFromGitHub`, opportunistically fill README and languages
(failures there swallowed), save, return the snapshot; a fetch failure is
mapped to `notFound` when its status is 404 and rethrown otherwise. -/
def syncRepository (store : Store) (c : GhClient) (now : ℤ)
    (owner repo : String) : Except ApiError Repo × Store :=
  match c.getRepository owner repo with
  | .error e =>
      (.error (if e.statusCode = 404
        then ApiError.notFound
          ("Repository " ++ owner ++ "/" ++ repo ++ " not found on GitHub")
        else e), store)
  | .ok gh =>
      let fc := findOrCreateFromGitHub store gh.id gh now
      let saved := enrichLanguages c owner repo
        (enrichReadme c now owner repo fc.1)
      (.ok saved, saveReplace fc.2 saved)

/-- The inline point-lookup freshness check of
`GitHubService.getRepositoryById`: fresh iff `lastSyncedAt` is present and
less than one hour old (`hoursSinceSync < 1`; a missing timestamp gives
`Infinity`). -/
def ghFresh (snap : Repo) (now : ℤ) : Bool :=
  match snap.lastSyncedAt with
  | some t => now - t < 3600000
  | none => false

/-- `GitHubService.getRepositoryById(repoId)`: reject an unparsable id with a
400 (`none` models `parseInt` returning `NaN`); serve the cached snapshot
when fresh; otherwise fetch by id and run `syncRepository`, and on any
failure in that block return the cached snapshot when one exists, else
rethrow. -/
def getRepositoryById (store : Store) (c : GhClient) (now : ℤ)
    (repoId : Option ℤ) : Except ApiError Repo × Store :=
  match repoId with
  | none => (.error (ApiError.badRequest "Invalid repository ID"), store)
  | some githubId =>
      match findByGithubId store githubId with
      | some snap =>
          if ghFresh snap now then (.ok snap, store)
          else
            match c.getById githubId with
            | .ok gh =>
                let ownerRepo := splitFullName gh.full_name
                match syncRepository store c now ownerRepo.1 ownerRepo.2 with
                | (.ok s, st) => (.ok s, st)
                | (.error _, st) => (.ok snap, st)
            | .error _ => (.ok snap, store)
      | none =>
          match c.getById githubId with
          | .ok gh =>
              let ownerRepo := splitFullName gh.full_name
              syncRepository store c now ownerRepo.1 ownerRepo.2
          | .error e => (.error e, store)

/-- The `Promise.allSettled` stage of `GitHubService.bulkSyncRepositories`:
one settled outcome per target (sequentialized over the shared store). -/
def bulkSyncResults (c : GhClient) (now : ℤ) :
    Store → List (String × String) → List (Except ApiError Repo) × Store
  | store, [] => ([], store)
  | store, t :: ts =>
      let res := syncRepository store c now t.1 t.2
      let rest := bulkSyncResults c now res.2 ts
      (res.1 :: rest.1, rest.2)

/-- `GitHubService.bulkSyncRepositories(repositories)`: run every target's
`syncRepository`, and return the array of fulfilled snapshots (the rejected
reasons are collected into a local `failed` array that is only logged). -/
def bulkSyncRepositories (c : GhClient) (now : ℤ) (store : Store)
    (targets : List (String × String)) : List Repo × Store :=
  let rs := bulkSyncResults c now store targets
  (rs.1.filterMap (fun x => match x with | .ok v => some v | .error _ => none),
   rs.2)

/-- The local `failed` array computed inside `bulkSyncRepositories` (logged,
not returned). -/
def bulkSyncFailed (c : GhClient) (now : ℤ) (store : Store)
    (targets : List (String × String)) : List ApiError :=
  (bulkSyncResults c now store targets).1.filterMap
    (fun x => match x with | .error e => some e | .ok _ => none)

/-! ### Text search over the snapshot store

MongoDB's `$text` matching and `textScore` relevance live inside the
database, outside this repository, so they are modelled as an oracle:
a match predicate (`textMatch`) and a score function.  Mongo's sort on equal keys is
embedded as a stable sort (documents keep their collection order). -/

/-- The text index over `name` + `description`: Mongo-side match predicate
and relevance score. -/
structure TextIndex where
  textMatch : String → Repo → Bool
  score : String → Repo → ℚ

/-- Insert into a sorted list, keeping the new element after none of the
elements it precedes under `le` (stable insertion). -/
def orderedInsert (le : Repo → Repo → Bool) (a : Repo) : List Repo → List Repo
  | [] => [a]
  | b :: bs => if le a b then a :: b :: bs else b :: orderedInsert le a bs

/-- Stable insertion sort with respect to a boolean relation. -/
def insertionSortBy (le : Repo → Repo → Bool) : List Repo → List Repo
  | [] => []
  | a :: as => orderedInsert le a (insertionSortBy le as)

/-- Descending comparison on the relevance score alone — the sort key
`{ score: { $meta: "textScore" } }` used by `searchLocalRepos`. -/
def leByScore (txt : TextIndex) (q : String) (a b : Repo) : Bool :=
  decide (txt.score q b ≤ txt.score q a)

/-- Descending comparison on star count — the sort `{ stars: -1 }`. -/
def leByStars (a b : Repo) : Bool :=
  decide (b.stars ≤ a.stars)

/-- Descending lexicographic (score, stars) — the sort
`{ score: { $meta: "textScore" }, stars: -1 }` of the model-level static
`RepoSnapshot.searchRepos`. -/
def leByScoreStars (txt : TextIndex) (q : String) (a b : Repo) : Bool :=
  decide (txt.score q b < txt.score q a) ||
    (decide (txt.score q a = txt.score q b) && decide (b.stars ≤ a.stars))

/-- The Mongo filter built by `RepoService.searchLocalRepos`:
`isPrivate: false`, plus `$text` when a query is given, plus an exact
`language` match when given. -/
def localSearchFiltered (txt : TextIndex) (store : Store)
    (query language : Option String) : List Repo :=
  store.filter (fun r =>
    !r.isPrivate &&
    (strFalsy query || txt.textMatch (query.getD "") r) &&
    (strFalsy language || r.language == some (language.getD "")))

/-- The sorted result set of `searchLocalRepos` before `skip`/`limit`:
by text score when a query is given, by star count otherwise. -/
def localSearchSorted (txt : TextIndex) (store : Store)
    (query language : Option String) : List Repo :=
  if strFalsy query then
    insertionSortBy leByStars (localSearchFiltered txt store query language)
  else
    insertionSortBy (leByScore txt (query.getD ""))
      (localSearchFiltered txt store query language)

/-- `RepoService.searchLocalRepos(query, options)`: filter, sort, then
paginate with `skip = (page - 1) * limit` and `limit`; the second component
is `countDocuments` over the same filter. -/
def searchLocalRepos (txt : TextIndex) (store : Store)
    (query language : Option String) (page limit : Nat) : List Repo × Nat :=
  (((localSearchSorted txt store query language).drop ((page - 1) * limit)).take
      limit,
   (localSearchFiltered txt store query language).length)

/-- JavaScript `v || d` on an optional number (`0` is falsy). -/
def jsNumOr (v : Option Nat) (d : Nat) : Nat :=
  match v with
  | none => d
  | some 0 => d
  | some n => n

/-- The model-level static `RepoSnapshot.searchRepos(query, options)`:
`$text` match, `isPrivate: false`, optional `language`, sorted by text score
then stars descending, truncated to `options.limit || 20` — with no
`skip`/page parameter. -/
def searchReposStatic (txt : TextIndex) (store : Store) (query : String)
    (language : Option String) (limit : Option Nat) : List Repo :=
  let base := store.filter (fun r =>
    txt.textMatch query r && !r.isPrivate &&
    (strFalsy language || r.language == some (language.getD "")))
  (insertionSortBy (leByScoreStars txt query) base).take (jsNumOr limit 20)

/-! ### Helper lemmas on the store model -/

theorem mem_of_findByGithubId {store : Store} {id : ℤ} {r : Repo}
    (h : findByGithubId store id = some r) : r ∈ store ∧ r.githubId = id := by
  refine ⟨List.mem_of_find?_eq_some h, ?_⟩
  have := List.find?_some h
  simpa using this

theorem findByGithubId_none {store : Store} {id : ℤ}
    (h : findByGithubId store id = none) : ∀ x ∈ store, x.githubId ≠ id := by
  intro x hx
  have := List.find?_eq_none.mp h x hx
  simpa using this

theorem rid_unique {store : Store}
    (h : store.Pairwise (fun a b => a.rid ≠ b.rid)) :
    ∀ x ∈ store, ∀ y ∈ store, x.rid = y.rid → x = y := by
  induction store with
  | nil => intro x hx; simp at hx
  | cons a l ih =>
      intro x hx y hy hxy
      rcases List.pairwise_cons.mp h with ⟨ha, hl⟩
      rcases List.mem_cons.mp hx with rfl | hx' <;>
        rcases List.mem_cons.mp hy with rfl | hy'
      · rfl
      · exact absurd hxy (ha y hy')
      · exact absurd hxy.symm (ha x hx')
      · exact ih hl x hx' y hy' hxy

theorem saveReplace_eq_self {store : Store} {r : Repo}
    (h : ∀ x ∈ store, x.rid = r.rid → x = r) : saveReplace store r = store := by
  unfold saveReplace
  rw [List.map_eq_map_iff.mpr]
  · exact List.map_id store
  intro x hx
  by_cases hc : x.rid = r.rid
  · simp [hc, (h x hx hc).symm]
  · simp [hc]

theorem rid_map_saveReplace (store : Store) (r : Repo) :
    (saveReplace store r).map (fun x => x.rid) = store.map (fun x => x.rid) := by
  unfold saveReplace
  rw [List.map_map]
  refine List.map_congr_left ?_
  intro x _
  by_cases hc : x.rid = r.rid <;> simp [hc]

theorem pairwise_rid_saveReplace {store : Store} {r : Repo}
    (h : store.Pairwise (fun a b => a.rid ≠ b.rid)) :
    (saveReplace store r).Pairwise (fun a b => a.rid ≠ b.rid) := by
  have h1 : (store.map (fun x => x.rid)).Pairwise (· ≠ ·) :=
    (List.pairwise_map).mpr h
  have h2 : ((saveReplace store r).map (fun x => x.rid)).Pairwise (· ≠ ·) := by
    rw [rid_map_saveReplace]; exact h1
  exact (List.pairwise_map).mp h2

theorem findByGithubId_saveReplace {store : Store} {id : ℤ} {r0 r' : Repo}
    (hnd : store.Pairwise (fun a b => a.rid ≠ b.rid))
    (hf : findByGithubId store id = some r0)
    (hr : r'.rid = r0.rid) (hg : r'.githubId = id) :
    findByGithubId (saveReplace store r') id = some r' := by
  induction store with
  | nil => simp [findByGithubId] at hf
  | cons a l ih =>
      rcases List.pairwise_cons.mp hnd with ⟨ha, hl⟩
      by_cases hag : a.githubId = id
      · have : r0 = a := by
          have : findByGithubId (a :: l) id = some a := by
            simp [findByGithubId, List.find?_cons_of_pos, hag]
          rw [hf] at this; exact (Option.some.injEq _ _).mp this
        subst this
        simp [findByGithubId, saveReplace, hr, hg]
      · have hf' : findByGithubId l id = some r0 := by
          simpa [findByGithubId, List.find?_cons_of_neg, hag] using hf
        have hmem : r0 ∈ l := (List.mem_of_find?_eq_some hf')
        have hne : a.rid ≠ r'.rid := by
          rw [hr]; exact ha r0 hmem
        have := ih hl hf'
        simpa [findByGithubId, saveReplace, hne, hag] using this

theorem length_filter_map_congr {l : List Repo} {f : Repo → Repo}
    {p : Repo → Bool} (h : ∀ x ∈ l, p (f x) = p x) :
    ((l.map f).filter p).length = (l.filter p).length := by
  induction l with
  | nil => rfl
  | cons a t ih =>
      have ha := h a (List.mem_cons_self a t)
      have ht : ∀ x ∈ t, p (f x) = p x := fun x hx => h x (List.mem_cons_of_mem a hx)
      by_cases hp : p a = true
      · simp [List.filter_cons, ha, hp, ih ht]
      · simp [List.filter_cons, ha, hp, ih ht]

theorem le_foldr_max (l : List Nat) : ∀ x ∈ l, x ≤ l.foldr max 0 := by
  induction l with
  | nil => intro x hx; simp at hx
  | cons a t ih =>
      intro x hx
      rcases List.mem_cons.mp hx with rfl | hx'
      · exact le_max_left _ _
      · exact le_trans (ih x hx') (le_max_right _ _)

theorem freshRid_not_mem (store : Store) : ∀ x ∈ store, x.rid ≠ freshRid store := by
  intro x hx
  have : x.rid ≤ (store.map (fun r => r.rid)).foldr max 0 :=
    le_foldr_max _ _ (List.mem_map_of_mem _ hx)
  unfold freshRid
  omega

theorem updateFromGitHub_rid (r : Repo) (d : GithubData) (now : ℤ) :
    (updateFromGitHub r d now).rid = r.rid := rfl

theorem updateFromGitHub_githubId (r : Repo) (d : GithubData) (now : ℤ) :
    (updateFromGitHub r d now).githubId = r.githubId := rfl

theorem updateFromGitHub_idem (r : Repo) (d : GithubData) (now : ℤ) :
    updateFromGitHub (updateFromGitHub r d now) d now =
      updateFromGitHub r d now := rfl

theorem enrichReadme_rid (c : GhClient) (now : ℤ) (owner repo : String)
    (s : Repo) : (enrichReadme c now owner repo s).rid = s.rid := by
  unfold enrichReadme
  split
  · rcases h : c.getReadme owner repo with e | v
    · simp
    · cases v with
      | none => simp
      | some rm => by_cases hrm : rm = "" <;> simp [hrm]
  · rfl

theorem enrichLanguages_rid (c : GhClient) (owner repo : String) (s : Repo) :
    (enrichLanguages c owner repo s).rid = s.rid := by
  unfold enrichLanguages
  split
  · rcases h : c.getLanguages owner repo with e | v <;> simp
  · rfl

theorem mem_saveReplace_self {store : Store} {x r' : Repo}
    (hx : x ∈ store) (h : x.rid = r'.rid) : r' ∈ saveReplace store r' := by
  unfold saveReplace
  have := List.mem_map_of_mem (fun y => if y.rid = r'.rid then r' else y) hx
  simpa [h] using this

theorem saveReplace_rid_eq {store : Store} {r' : Repo} :
    ∀ y ∈ saveReplace store r', y.rid = r'.rid → y = r' := by
  intro y hy hrid
  rcases List.mem_map.mp hy with ⟨x, hx, rfl⟩
  by_cases hc : x.rid = r'.rid
  · simp [hc]
  · simp only [hc, if_false] at hrid ⊢

theorem find?_append_none {p : Repo → Bool} {l1 l2 : List Repo}
    (h : l1.find? p = none) : (l1 ++ l2).find? p = l2.find? p := by
  induction l1 with
  | nil => rfl
  | cons a t ih =>
      have ha : p a = false := by
        by_cases hp : p a = true
        · rw [List.find?_cons_of_pos _ hp] at h; exact absurd h (by simp)
        · simpa using hp
      have ht : t.find? p = none := by
        rwa [List.find?_cons_of_neg _ (by simp [ha])] at h
      rw [List.cons_append, List.find?_cons_of_neg _ (by simp [ha])]
      exact ih ht

theorem findOrCreate_fst_mem (store : Store) (id : ℤ) (d : GithubData)
    (now : ℤ) :
    (findOrCreateFromGitHub store id d now).1 ∈
      (findOrCreateFromGitHub store id d now).2 := by
  unfold findOrCreateFromGitHub
  cases h : findByGithubId store id with
  | some r =>
      simp only
      exact mem_saveReplace_self (mem_of_findByGithubId h).1
        (updateFromGitHub_rid r d now).symm
  | none => simp

theorem syncRepository_ok_mem {store : Store} {c : GhClient} {now : ℤ}
    {owner repo : String} {r : Repo} {st : Store}
    (h : syncRepository store c now owner repo = (.ok r, st)) : r ∈ st := by
  unfold syncRepository at h
  rcases hgr : c.getRepository owner repo with e | gh
  · rw [hgr] at h; simp at h
  · rw [hgr] at h
    simp only [Prod.mk.injEq, Except.ok.injEq] at h
    rcases h with ⟨h1, h2⟩
    subst h1
    subst h2
    set fc := findOrCreateFromGitHub store gh.id gh now with hfc
    have hmem : fc.1 ∈ fc.2 := findOrCreate_fst_mem store gh.id gh now
    refine mem_saveReplace_self hmem ?_
    rw [enrichLanguages_rid, enrichReadme_rid]

theorem mem_orderedInsert {le : Repo → Repo → Bool} {a x : Repo}
    {l : List Repo} : x ∈ orderedInsert le a l ↔ x = a ∨ x ∈ l := by
  induction l with
  | nil => simp [orderedInsert]
  | cons b bs ih =>
      by_cases h : le a b = true
      · simp [orderedInsert, h, List.mem_cons]
      · simp only [orderedInsert, h]
        simp [List.mem_cons, ih]
        tauto

theorem mem_insertionSortBy {le : Repo → Repo → Bool} {x : Repo}
    {l : List Repo} : x ∈ insertionSortBy le l ↔ x ∈ l := by
  induction l with
  | nil => simp [insertionSortBy]
  | cons a as ih =>
      simp [insertionSortBy, mem_orderedInsert, ih, List.mem_cons]

theorem pairwise_orderedInsert {le : Repo → Repo → Bool}
    (htot : ∀ a b, le a b = true ∨ le b a = true)
    (htrans : ∀ a b c, le a b = true → le b c = true → le a c = true)
    {a : Repo} {l : List Repo}
    (h : l.Pairwise (fun x y => le x y = true)) :
    (orderedInsert le a l).Pairwise (fun x y => le x y = true) := by
  induction l with
  | nil => simp [orderedInsert]
  | cons b bs ih =>
      rcases List.pairwise_cons.mp h with ⟨hb, hbs⟩
      by_cases hab : le a b = true
      · simp only [orderedInsert, hab, if_true]
        refine List.pairwise_cons.mpr ⟨?_, h⟩
        intro y hy
        rcases List.mem_cons.mp hy with rfl | hy'
        · exact hab
        · exact htrans a b y hab (hb y hy')
      · simp only [orderedInsert, hab, if_false]
        refine List.pairwise_cons.mpr ⟨?_, ih hbs⟩
        intro y hy
        rcases mem_orderedInsert.mp hy with rfl | hy'
        · rcases htot y b with h' | h'
          · exact absurd h' hab
          · exact h'
        · exact hb y hy'

theorem pairwise_insertionSortBy {le : Repo → Repo → Bool}
    (htot : ∀ a b, le a b = true ∨ le b a = true)
    (htrans : ∀ a b c, le a b = true → le b c = true → le a c = true)
    (l : List Repo) :
    (insertionSortBy le l).Pairwise (fun x y => le x y = true) := by
  induction l with
  | nil => simp [insertionSortBy]
  | cons a as ih => exact pairwise_orderedInsert htot htrans ih

/-! ### Concrete payloads for witnesses and counterexamples -/

/-- A sample GitHub repository payload. -/
def dataAcme : GithubData :=
  { id := 42, owner_login := "acme", owner_avatar_url := "a.png",
    name := "widget", full_name := "acme/widget", description := some "d",
    html_url := "u", clone_url := some "c", language := some "Go",
    stargazers_count := 10, forks_count := 2, watchers_count := 3,
    open_issues_count := 1, privateFlag := false, fork := false,
    default_branch := "main", topics := some ["t"],
    license_spdx_id := some "MIT", created_at := some 1, updated_at := some 2,
    pushed_at := some 3 }

/-- A snapshot with a chosen `lastSyncedAt`, otherwise fresh defaults. -/
def repoSyncedAt (t : Option ℤ) : Repo :=
  { newRepo 1 7 0 with lastSyncedAt := t }

/-- A cached snapshot for GitHub id 42, synced at time 0. -/
def staleCached : Repo := newRepo 1 42 0

/-- A by-full-name fetcher that always succeeds with `dataAcme`. -/
def gbfOk : String → Except ApiError GithubData := fun _ => .ok dataAcme

/-- A by-full-name fetcher that always fails with a transport error. -/
def gbfErr : String → Except ApiError GithubData :=
  fun _ => .error (ApiError.internal "Failed to connect to GitHub API")

/-- A client whose every call fails with a transport error. -/
def cFail : GhClient :=
  { getById := fun _ => .error (ApiError.internal "Failed to connect to GitHub API")
    getRepository := fun _ _ =>
      .error (ApiError.internal "Failed to connect to GitHub API")
    getReadme := fun _ _ =>
      .error (ApiError.internal "Failed to connect to GitHub API")
    getLanguages := fun _ _ =>
      .error (ApiError.internal "Failed to connect to GitHub API") }

/-- A client whose every call succeeds (repository payload `dataAcme`). -/
def cOk : GhClient :=
  { getById := fun _ => .ok dataAcme
    getRepository := fun _ _ => .ok dataAcme
    getReadme := fun _ _ => .ok (some "hello")
    getLanguages := fun _ _ => .ok [("Go", 300), ("JS", 100)] }

/-! ### Claim theorems -/

/-- **C4** (freshness gating).  The snapshot-level predicate `needsSync`
reports "needs refresh" exactly when `lastSyncedAt` is absent or the
snapshot is outside its 24-hour window; the inline point-lookup check of
`getRepositoryById` (`ghFresh`) reports fresh exactly when `lastSyncedAt`
is present and inside its 1-hour window.  In particular a snapshot synced
right now is fresh under both (no refresh), and a snapshot synced 2 hours
ago is outside the 1-hour point-lookup window, so that path refreshes. -/
theorem freshness_gating :
    (∀ (r : Repo) (now : ℤ), needsSync r now = true ↔
        (r.lastSyncedAt = none ∨
          ∃ t, r.lastSyncedAt = some t ∧ 24 * 3600000 < now - t))
  ∧ (∀ (r : Repo) (now : ℤ), ghFresh r now = false ↔
        (r.lastSyncedAt = none ∨
          ∃ t, r.lastSyncedAt = some t ∧ 3600000 ≤ now - t))
  ∧ (∀ (r : Repo) (now : ℤ), r.lastSyncedAt = some now →
        ghFresh r now = true ∧ needsSync r now = false)
  ∧ (∀ (r : Repo) (now : ℤ), r.lastSyncedAt = some (now - 7200000) →
        ghFresh r now = false) := by
  refine ⟨?_, ?_, ?_, ?_⟩
  · intro r now
    cases h : r.lastSyncedAt with
    | none => simp [needsSync, h]
    | some t =>
        simp only [needsSync, h, decide_eq_true_eq, Option.some.injEq]
        constructor
        · intro hgt
          exact Or.inr ⟨t, rfl, hgt⟩
        · rintro (hn | ⟨t', ht', hlt⟩)
          · exact absurd hn (by simp)
          · subst ht'; exact hlt
  · intro r now
    cases h : r.lastSyncedAt with
    | none => simp [ghFresh, h]
    | some t =>
        simp only [ghFresh, h, decide_eq_false_iff_not, not_lt,
          Option.some.injEq]
        constructor
        · intro hge
          exact Or.inr ⟨t, rfl, hge⟩
        · rintro (hn | ⟨t', ht', hge⟩)
          · exact absurd hn (by simp)
          · subst ht'; exact hge
  · intro r now h
    constructor
    · simp [ghFresh, h]
    · simp [needsSync, h]
  · intro r now h
    simp [ghFresh, h]

/-- Witness for C4 at concrete inputs: synced at `t = 5`, looked up at
`now = 5` (fresh under both windows) and synced at `t = 0`, looked up two
hours later (stale for the point-lookup window). -/
theorem freshness_gating_witness :
    ghFresh (repoSyncedAt (some 5)) 5 = true ∧
    needsSync (repoSyncedAt (some 5)) 5 = false ∧
    ghFresh (repoSyncedAt (some 0)) 7200000 = false :=
  ⟨(freshness_gating.2.2.1 (repoSyncedAt (some 5)) 5 rfl).1,
   (freshness_gating.2.2.1 (repoSyncedAt (some 5)) 5 rfl).2,
   freshness_gating.2.2.2 (repoSyncedAt (some 0)) 7200000 (by decide)⟩

/-- **C10** (minimum query length).  `RepoService.searchRepos` rejects a
missing query or a query whose trimmed length is below 2 with a 400
bad-request error and performs zero remote calls; for a query of trimmed
length at least 2 it issues exactly one remote search call. -/
theorem searchRepos_min_query :
    (∀ (search : String → Nat → Nat → Except ApiError GhSearchResult)
        (query : Option String) (opts : SearchOptions),
        (strFalsy query = true ∨ (jsTrim (query.getD "")).length < 2) →
        searchRepos search query opts =
          (.error (ApiError.badRequest
            "Search query must be at least 2 characters"), 0))
  ∧ (∀ (search : String → Nat → Nat → Except ApiError GhSearchResult)
        (q : String) (opts : SearchOptions),
        2 ≤ (jsTrim q).length → (searchRepos search (some q) opts).2 = 1) := by
  constructor
  · intro search query opts h
    have hc : (strFalsy query = true ∨ (jsTrim (query.getD "")).length < 2) := h
    unfold searchRepos
    rw [if_pos hc]
  · intro search q opts h
    have hq : ¬ (strFalsy (some q) = true) := by
      intro hfal
      have : q = "" := by simpa [strFalsy] using hfal
      subst this
      simp [jsTrim] at h
    have hc : ¬ (strFalsy (some q) = true ∨
        (jsTrim ((some q).getD "")).length < 2) := by
      rintro (h1 | h2)
      · exact hq h1
      · simp only [Option.getD_some] at h2
        omega
    unfold searchRepos
    rw [if_neg hc]

/-- Witness for C10: the one-character query `"a"` is rejected with a 400 and
no remote call; the query `"ok"` triggers exactly one remote call. -/
theorem searchRepos_min_query_witness :
    searchRepos (fun _ _ _ => .error (ApiError.internal "x")) (some "a") {} =
      (.error (ApiError.badRequest
        "Search query must be at least 2 characters"), 0) ∧
    (searchRepos (fun _ _ _ => .ok ⟨[], 0⟩) (some "ok") {}).2 = 1 :=
  ⟨searchRepos_min_query.1 (fun _ _ _ => .error (ApiError.internal "x"))
      (some "a") {} (Or.inr (by decide)),
   searchRepos_min_query.2 (fun _ _ _ => .ok ⟨[], 0⟩) "ok" {} (by decide)⟩

/-- **C8** (sync bookkeeping frame).  In `RepoService.syncRepo`,
a successful core-field fetch stamps `lastSyncedAt := now` and clears
`syncError` (and throws nothing); a failed fetch changes only `syncError`
on the stored snapshot — the result equals the original record with
`syncError` replaced by the error message, so `lastSyncedAt` and every
other field are unchanged — and rethrows the error. -/
theorem sync_bookkeeping :
    (∀ (store : Store) (gbf : String → Except ApiError GithubData)
        (now : ℤ) (r : Repo) (d : GithubData), gbf r.fullName = .ok d →
        (syncRepo store gbf now r).1.lastSyncedAt = some now ∧
        (syncRepo store gbf now r).1.syncError = none ∧
        (syncRepo store gbf now r).2.1 = none)
  ∧ (∀ (store : Store) (gbf : String → Except ApiError GithubData)
        (now : ℤ) (r : Repo) (e : ApiError), gbf r.fullName = .error e →
        (syncRepo store gbf now r).1 =
          { r with syncError := some e.message } ∧
        (syncRepo store gbf now r).1.lastSyncedAt = r.lastSyncedAt ∧
        (syncRepo store gbf now r).1.stars = r.stars ∧
        (syncRepo store gbf now r).1.fullName = r.fullName ∧
        (syncRepo store gbf now r).1.readme = r.readme ∧
        (syncRepo store gbf now r).2.1 = some e) := by
  constructor
  · intro store gbf now r d h
    refine ⟨?_, ?_, ?_⟩ <;> simp [syncRepo, h, updateFromGitHub]
  · intro store gbf now r e h
    refine ⟨?_, ?_, ?_, ?_, ?_, ?_⟩ <;> simp [syncRepo, h]

/-- Witness for C8 at a concrete snapshot and concrete succeeding/failing
fetchers. -/
theorem sync_bookkeeping_witness :
    (syncRepo [] gbfOk 99 staleCached).1.lastSyncedAt = some 99 ∧
    (syncRepo [] gbfOk 99 staleCached).1.syncError = none ∧
    (syncRepo [] gbfErr 99 staleCached).1 =
      { staleCached with
        syncError := some "Failed to connect to GitHub API" } ∧
    (syncRepo [] gbfErr 99 staleCached).1.lastSyncedAt =
      staleCached.lastSyncedAt :=
  ⟨(sync_bookkeeping.1 [] gbfOk 99 staleCached dataAcme rfl).1,
   (sync_bookkeeping.1 [] gbfOk 99 staleCached dataAcme rfl).2.1,
   (sync_bookkeeping.2 [] gbfErr 99 staleCached
      (ApiError.internal "Failed to connect to GitHub API") rfl).1,
   (sync_bookkeeping.2 [] gbfErr 99 staleCached
      (ApiError.internal "Failed to connect to GitHub API") rfl).2.1⟩

/-- **C1 counterexample.**  On the `getRepositoryById` path the claim fails:
with a stale cached snapshot (`syncError = none`) and a remote client whose
fetch fails, the operation returns the cached snapshot with `syncError`
still `none` and leaves the store untouched — the error message is *not*
recorded in `syncError`, contradicting the claim for this path. -/
theorem stale_fallback_counterexample :
    getRepositoryById [staleCached] cFail 7200000 (some 42) =
      (.ok staleCached, [staleCached]) ∧
    staleCached.syncError = none ∧
    cFail.getById 42 =
      .error (ApiError.internal "Failed to connect to GitHub API") :=
  ⟨rfl, rfl, rfl⟩

/-- **C1** (amended: stale fallback).  When a snapshot exists and the remote
fetch fails, neither lookup path throws: `getRepoById` returns the cached
snapshot changed only in `syncError` (set to the error message, persisted);
`getRepositoryById` returns the cached snapshot entirely unchanged — with
no `syncError` recorded — whether the by-id fetch itself or the subsequent
`syncRepository` fails. -/
theorem stale_fallback :
    (∀ (store : Store) (gbf : String → Except ApiError GithubData)
        (now : ℤ) (rid : Nat) (r : Repo) (e : ApiError),
        findById store rid = some r → needsSync r now = true →
        gbf r.fullName = .error e →
        getRepoById store gbf now rid false =
          (.ok { r with syncError := some e.message },
           saveReplace store { r with syncError := some e.message }))
  ∧ (∀ (store : Store) (c : GhClient) (now : ℤ) (id : ℤ) (snap : Repo)
        (e : ApiError),
        findByGithubId store id = some snap → ghFresh snap now = false →
        c.getById id = .error e →
        getRepositoryById store c now (some id) = (.ok snap, store))
  ∧ (∀ (store : Store) (c : GhClient) (now : ℤ) (id : ℤ) (snap : Repo)
        (gh : GithubData) (e : ApiError) (st : Store),
        findByGithubId store id = some snap → ghFresh snap now = false →
        c.getById id = .ok gh →
        syncRepository store c now (splitFullName gh.full_name).1
          (splitFullName gh.full_name).2 = (.error e, st) →
        getRepositoryById store c now (some id) = (.ok snap, st)) := by
  refine ⟨?_, ?_, ?_⟩
  · intro store gbf now rid r e h1 h2 h3
    simp [getRepoById, h1, h2, syncRepo, h3]
  · intro store c now id snap e h1 h2 h3
    simp [getRepositoryById, h1, h2, h3]
  · intro store c now id snap gh e st h1 h2 h3 h4
    simp [getRepositoryById, h1, h2, h3, h4]

/-- Witness for C1 (amended) at concrete stale snapshots and failing
clients. -/
theorem stale_fallback_witness :
    getRepoById [staleCached] gbfErr (25 * 3600000) 1 false =
      (.ok { staleCached with
               syncError := some "Failed to connect to GitHub API" },
       saveReplace [staleCached]
         { staleCached with
             syncError := some "Failed to connect to GitHub API" }) ∧
    getRepositoryById [staleCached] cFail 7200001 (some 42) =
      (.ok staleCached, [staleCached]) :=
  ⟨stale_fallback.1 [staleCached] gbfErr (25 * 3600000) 1 staleCached
      (ApiError.internal "Failed to connect to GitHub API") rfl (by decide) rfl,
   stale_fallback.2.1 [staleCached] cFail 7200001 42 staleCached
      (ApiError.internal "Failed to connect to GitHub API") rfl (by decide) rfl⟩

/-- **C2 counterexample.**  On the `getRepoByGitHubId` path the claim fails:
with an empty store and a remote client that *would succeed* for any full
name, the cold-miss lookup performs zero remote calls and raises `notFound`
instead of fetching, upserting and returning the new snapshot. -/
theorem cold_miss_counterexample :
    getRepoByGitHubId [] gbfOk 0 42 =
      (.error (ApiError.notFound
        "Repository not found. Use fullName to fetch from GitHub."), [], 0) :=
  rfl

/-- **C2** (amended: cold-miss behavior).  `GitHubService.getRepositoryById`
implements the claimed behavior: on a cold miss it fetches by identifier;
on failure the error (in particular a remote `NotFound`) propagates to the
caller; on success the snapshot is upserted into the store and returned.
`RepoService.getRepoByGitHubId`, by contrast, raises `notFound` directly on
a cold miss with zero remote calls. -/
theorem cold_miss_propagation :
    (∀ (store : Store) (gbf : String → Except ApiError GithubData)
        (now : ℤ) (id : ℤ), findByGithubId store id = none →
        getRepoByGitHubId store gbf now id =
          (.error (ApiError.notFound
            "Repository not found. Use fullName to fetch from GitHub."),
           store, 0))
  ∧ (∀ (store : Store) (c : GhClient) (now : ℤ) (id : ℤ) (e : ApiError),
        findByGithubId store id = none → c.getById id = .error e →
        getRepositoryById store c now (some id) = (.error e, store))
  ∧ (∀ (store : Store) (c : GhClient) (now : ℤ) (id : ℤ) (gh : GithubData)
        (r : Repo) (st : Store),
        findByGithubId store id = none → c.getById id = .ok gh →
        syncRepository store c now (splitFullName gh.full_name).1
          (splitFullName gh.full_name).2 = (.ok r, st) →
        getRepositoryById store c now (some id) = (.ok r, st) ∧ r ∈ st) := by
  refine ⟨?_, ?_, ?_⟩
  · intro store gbf now id h
    simp [getRepoByGitHubId, h]
  · intro store c now id e h1 h2
    simp [getRepositoryById, h1, h2]
  · intro store c now id gh r st h1 h2 h3
    refine ⟨?_, syncRepository_ok_mem h3⟩
    simp [getRepositoryById, h1, h2, h3]

/-- Witness for C2 (amended): concrete cold misses against a failing client
and against `getRepoByGitHubId` with a succeeding fetcher. -/
theorem cold_miss_propagation_witness :
    getRepoByGitHubId [] gbfOk 0 7 =
      (.error (ApiError.notFound
        "Repository not found. Use fullName to fetch from GitHub."), [], 0) ∧
    getRepositoryById [] cFail 0 (some 7) =
      (.error (ApiError.internal "Failed to connect to GitHub API"), []) :=
  ⟨cold_miss_propagation.1 [] gbfOk 0 7 rfl,
   cold_miss_propagation.2.1 [] cFail 0 7
      (ApiError.internal "Failed to connect to GitHub API") rfl rfl⟩

/-- A snapshot with owner/name set and no cached languages. -/
def langRepo : Repo :=
  { newRepo 1 42 0 with ownerLogin := "acme", name := "widget" }

/-- A client that answers `getLanguages` with the given byte map and fails
every other capability. -/
def cLang (langs : List (String × Nat)) : GhClient :=
  { getById := fun _ => .error (ApiError.internal "x")
    getRepository := fun _ _ => .error (ApiError.internal "x")
    getReadme := fun _ _ => .error (ApiError.internal "x")
    getLanguages := fun _ _ => .ok langs }

/-- **C5 counterexample.**  `loadLanguages` rounds percentages to one
decimal place, not to the nearest integer percent: for the byte map
`{A: 1, B: 2}` it stores percentages `33.3` and `66.7`, whereas the claimed
rule `round(bytes / total_bytes * 100)` gives `33` and `67`
(`33.3 ≠ 33`). -/
theorem loadLanguages_counterexample :
    (loadLanguages [langRepo] (cLang [("A", 1), ("B", 2)]) 1).1 =
      .ok [⟨"A", 1, 333/10⟩, ⟨"B", 2, 667/10⟩] ∧
    ((333 : ℚ)/10 ≠ (jsRound ((1 : ℚ)/3 * 100) : ℚ)) := by
  constructor
  · norm_num [loadLanguages, findById, langRepo, newRepo, cLang, jsRound,
      Int.floor_eq_iff]
  · norm_num [jsRound, Int.floor_eq_iff]

/-- **C5** (amended: language percentages).  For a fetched byte map,
`RepoService.loadLanguages` returns one entry per language whose percentage
is `Math.round(bytes / total_bytes * 100 * 10) / 10` — the nearest *tenth*
of a percent.  On the example map `{Go: 300, JS: 100}` this yields 75 and
25, agreeing with the claimed integer rounding, and the
`GitHubService.syncRepository` path (`computeSyncLanguages`) does use
nearest-integer rounding. -/
theorem loadLanguages_percentages :
    (∀ (store : Store) (c : GhClient) (rid : Nat) (r : Repo)
        (langs : List (String × Nat)),
        findById store rid = some r → r.languages = [] →
        c.getLanguages r.ownerLogin r.name = .ok langs →
        (loadLanguages store c rid).1 = .ok (langs.map (fun p =>
          { name := p.1, bytes := p.2,
            percentage := (jsRound ((p.2 : ℚ) /
              ((((langs.map Prod.snd).foldl (· + ·) 0 : ℕ) : ℚ)) * 100 * 10) :
                ℚ) / 10 })))
  ∧ ((loadLanguages [langRepo] (cLang [("Go", 300), ("JS", 100)]) 1).1 =
      .ok [⟨"Go", 300, 75⟩, ⟨"JS", 100, 25⟩])
  ∧ (computeSyncLanguages [("Go", 300), ("JS", 100)] =
      [⟨"Go", 300, 75⟩, ⟨"JS", 100, 25⟩]) := by
  refine ⟨?_, ?_, ?_⟩
  · intro store c rid r langs h1 h2 h3
    simp [loadLanguages, h1, h2, h3]
  · norm_num [loadLanguages, findById, langRepo, newRepo, cLang, jsRound,
      Int.floor_eq_iff]
  · norm_num [computeSyncLanguages, jsRound, Int.floor_eq_iff]

/-- Witness for C5 (amended) at the `{A: 1, B: 2}` byte map: one-decimal
percentages. -/
theorem loadLanguages_percentages_witness :
    (loadLanguages [langRepo] (cLang [("A", 1), ("B", 2)]) 1).1 =
      .ok ([("A", (1 : Nat)), ("B", 2)].map (fun p =>
        { name := p.1, bytes := p.2,
          percentage := (jsRound ((p.2 : ℚ) /
            (((([("A", (1 : Nat)), ("B", 2)].map Prod.snd).foldl (· + ·) 0 :
              ℕ) : ℚ)) * 100 * 10) : ℚ) / 10 })) :=
  loadLanguages_percentages.1 [langRepo] (cLang [("A", 1), ("B", 2)]) 1
    langRepo [("A", 1), ("B", 2)] rfl rfl rfl

/-- A client for the three-target bulk scenario: core fetch fails (status
500, the given message) exactly for owner `"o2"`, succeeds otherwise;
README and language calls fail (they are swallowed). -/
def cBulk (msg : String) : GhClient :=
  { getById := fun _ => .error (ApiError.internal msg)
    getRepository := fun o rp =>
      if o = "o2" then .error (ApiError.internal msg)
      else .ok { dataAcme with
        id := if o = "o1" then 1 else 3, full_name := o ++ "/" ++ rp }
    getReadme := fun _ _ => .error (ApiError.internal msg)
    getLanguages := fun _ _ => .error (ApiError.internal msg) }

theorem length_filterMap_ok_add_error (l : List (Except ApiError Repo)) :
    (l.filterMap (fun x => match x with
      | .ok v => some v | .error _ => none)).length +
    (l.filterMap (fun x => match x with
      | .error e => some e | .ok _ => none)).length = l.length := by
  induction l with
  | nil => rfl
  | cons a t ih =>
      cases a <;> simp [List.filterMap_cons] <;> omega

/-- **C3 counterexample.**  `bulkSyncRepositories` does not return a value of
shape `{succeeded, failed}`: its return value is the array of succeeded
snapshots only.  Two runs over the same three targets whose only difference
is the failing target's error produce *identical* return values while their
internal `failed` collections differ — so the errors are not part of the
returned value, contradicting the claimed return shape. -/
theorem bulkSync_counterexample :
    bulkSyncRepositories (cBulk "boom") 0 []
        [("o1", "r1"), ("o2", "r2"), ("o3", "r3")] =
      bulkSyncRepositories (cBulk "zap") 0 []
        [("o1", "r1"), ("o2", "r2"), ("o3", "r3")] ∧
    bulkSyncFailed (cBulk "boom") 0 []
        [("o1", "r1"), ("o2", "r2"), ("o3", "r3")] ≠
      bulkSyncFailed (cBulk "zap") 0 []
        [("o1", "r1"), ("o2", "r2"), ("o3", "r3")] := by
  constructor
  · rfl
  · decide

/-- **C3** (amended: bulk partial failure).  `bulkSyncRepositories` settles
every target (one outcome per target, so no failure aborts the batch), the
succeeded snapshots and collected failures partition the targets, and no
exception escapes (the function returns a plain list).  For the concrete
3-target batch whose 2nd target fails, 2 snapshots are returned and the
internal `failed` collection holds exactly that one error — but only the
succeeded array is returned; the failures are logged, not returned. -/
theorem bulkSync_partial_failure :
    (∀ (c : GhClient) (now : ℤ) (store : Store)
        (targets : List (String × String)),
        (bulkSyncResults c now store targets).1.length = targets.length)
  ∧ (∀ (c : GhClient) (now : ℤ) (store : Store)
        (targets : List (String × String)),
        (bulkSyncRepositories c now store targets).1.length +
          (bulkSyncFailed c now store targets).length = targets.length)
  ∧ ((bulkSyncRepositories (cBulk "boom") 0 []
        [("o1", "r1"), ("o2", "r2"), ("o3", "r3")]).1.length = 2 ∧
      bulkSyncFailed (cBulk "boom") 0 []
        [("o1", "r1"), ("o2", "r2"), ("o3", "r3")] =
          [ApiError.internal "boom"]) := by
  have hlen : ∀ (c : GhClient) (now : ℤ) (targets : List (String × String))
      (store : Store),
      (bulkSyncResults c now store targets).1.length = targets.length := by
    intro c now targets
    induction targets with
    | nil => intro store; rfl
    | cons t ts ih =>
        intro store
        simp [bulkSyncResults, ih]
  refine ⟨fun c now store targets => hlen c now targets store, ?_, ?_, ?_⟩
  · intro c now store targets
    have := length_filterMap_ok_add_error (bulkSyncResults c now store targets).1
    simpa [bulkSyncRepositories, bulkSyncFailed] using
      this.trans (hlen c now targets store)
  · rfl
  · rfl

/-- **C6** (idempotent upsert).  On a store with unique `_id`s satisfying
the one-snapshot-per-`githubId` invariant, running
`findOrCreateFromGitHub(id, d)` twice with the same payload leaves the
store exactly as after one call, returns the same document, and the store
holds exactly one record for that `githubId` — no duplicate, no drift. -/
theorem upsert_idempotent (store : Store) (id : ℤ) (d : GithubData) (now : ℤ)
    (hnd : store.Pairwise (fun a b => a.rid ≠ b.rid))
    (huniq : (store.filter (fun r => r.githubId = id)).length ≤ 1) :
    (findOrCreateFromGitHub (findOrCreateFromGitHub store id d now).2 id d
        now).2 = (findOrCreateFromGitHub store id d now).2 ∧
    (findOrCreateFromGitHub (findOrCreateFromGitHub store id d now).2 id d
        now).1 = (findOrCreateFromGitHub store id d now).1 ∧
    ((findOrCreateFromGitHub store id d now).2.filter
        (fun r => r.githubId = id)).length = 1 := by
  cases h : findByGithubId store id with
  | none =>
      set r1 := updateFromGitHub (newRepo (freshRid store) id now) d now
        with hr1
      have hs1 : findOrCreateFromGitHub store id d now = (r1, store ++ [r1]) := by
        simp [findOrCreateFromGitHub, h]
      have hg1 : r1.githubId = id := by
        simp [hr1, updateFromGitHub, newRepo]
      have hrid1 : r1.rid = freshRid store := by
        simp [hr1, updateFromGitHub, newRepo]
      have hfind1 : findByGithubId (store ++ [r1]) id = some r1 := by
        unfold findByGithubId at h ⊢
        rw [find?_append_none h]
        simp [List.find?, hg1]
      have hidem : updateFromGitHub r1 d now = r1 := by
        rw [hr1, updateFromGitHub_idem]
      have hsr : saveReplace (store ++ [r1]) r1 = store ++ [r1] := by
        apply saveReplace_eq_self
        intro x hx hxr
        rcases List.mem_append.mp hx with hx' | hx'
        · exact absurd (hxr.trans hrid1) (freshRid_not_mem store x hx')
        · simpa using hx'
      have hsecond : findOrCreateFromGitHub (store ++ [r1]) id d now =
          (r1, store ++ [r1]) := by
        simp [findOrCreateFromGitHub, hfind1, hidem, hsr]
      have hnil : store.filter (fun r => r.githubId = id) = [] := by
        rw [List.filter_eq_nil_iff]
        intro a ha
        simpa using findByGithubId_none h a ha
      refine ⟨?_, ?_, ?_⟩
      · rw [hs1, hsecond]
      · rw [hs1, hsecond]
      · rw [hs1]
        simp [List.filter_append, hnil, hg1]
  | some r0 =>
      set r1 := updateFromGitHub r0 d now with hr1
      have hmem0 : r0 ∈ store := (mem_of_findByGithubId h).1
      have hg0 : r0.githubId = id := (mem_of_findByGithubId h).2
      have hrid1 : r1.rid = r0.rid := by simp [hr1, updateFromGitHub]
      have hg1 : r1.githubId = id := by simp [hr1, updateFromGitHub, hg0]
      have hs1 : findOrCreateFromGitHub store id d now =
          (r1, saveReplace store r1) := by
        simp [findOrCreateFromGitHub, h]
      have hfind1 : findByGithubId (saveReplace store r1) id = some r1 :=
        findByGithubId_saveReplace hnd h hrid1 hg1
      have hidem : updateFromGitHub r1 d now = r1 := by
        rw [hr1, updateFromGitHub_idem]
      have hsr : saveReplace (saveReplace store r1) r1 = saveReplace store r1 :=
        saveReplace_eq_self (fun y hy hyr => saveReplace_rid_eq y hy hyr)
      have hsecond : findOrCreateFromGitHub (saveReplace store r1) id d now =
          (r1, saveReplace store r1) := by
        simp [findOrCreateFromGitHub, hfind1, hidem, hsr]
      have hpt : ∀ x ∈ store,
          (fun r => decide (r.githubId = id))
              (if x.rid = r1.rid then r1 else x) =
            (fun r => decide (r.githubId = id)) x := by
        intro x hx
        by_cases hc : x.rid = r1.rid
        · have hx0 : x = r0 := rid_unique hnd x hx r0 hmem0 (hc.trans hrid1)
          subst hx0
          simp [hc, hg0, hg1]
        · simp [hc]
      have hclen : ((saveReplace store r1).filter
          (fun r => r.githubId = id)).length =
          (store.filter (fun r => r.githubId = id)).length := by
        unfold saveReplace
        exact length_filter_map_congr hpt
      have hone : (store.filter (fun r => r.githubId = id)).length = 1 := by
        have hmemf : r0 ∈ store.filter (fun r => r.githubId = id) :=
          List.mem_filter.mpr ⟨hmem0, by simp [hg0]⟩
        have hpos : 0 < (store.filter (fun r => r.githubId = id)).length :=
          List.length_pos.mpr (fun hemp => by simp [hemp] at hmemf)
        omega
      refine ⟨?_, ?_, ?_⟩
      · rw [hs1, hsecond]
      · rw [hs1, hsecond]
      · rw [hs1]
        rw [hclen, hone]

/-- Witness for C6: double upsert of `dataAcme` into the empty store. -/
theorem upsert_idempotent_witness :
    (findOrCreateFromGitHub (findOrCreateFromGitHub [] 42 dataAcme 5).2 42
        dataAcme 5).2 = (findOrCreateFromGitHub [] 42 dataAcme 5).2 ∧
    (findOrCreateFromGitHub (findOrCreateFromGitHub [] 42 dataAcme 5).2 42
        dataAcme 5).1 = (findOrCreateFromGitHub [] 42 dataAcme 5).1 ∧
    ((findOrCreateFromGitHub [] 42 dataAcme 5).2.filter
        (fun r => r.githubId = 42)).length = 1 :=
  upsert_idempotent [] 42 dataAcme 5 List.Pairwise.nil (by simp)

/-- **C7** (identity survives rename).  Upserting an existing `githubId`
with a payload carrying a different `full_name` updates the same document
in place: lookup by `githubId` afterwards returns the updated document,
which keeps its `_id` (and its enrichment fields such as README and
languages) while carrying the new `fullName`; the set of document `_id`s in
the store is unchanged, so `fullName` is never the identity. -/
theorem identity_survives_rename (store : Store) (id : ℤ) (d : GithubData)
    (now : ℤ) (r0 : Repo)
    (hnd : store.Pairwise (fun a b => a.rid ≠ b.rid))
    (hf : findByGithubId store id = some r0)
    (hren : d.full_name ≠ r0.fullName) :
    findByGithubId (findOrCreateFromGitHub store id d now).2 id =
      some (findOrCreateFromGitHub store id d now).1 ∧
    (findOrCreateFromGitHub store id d now).1.rid = r0.rid ∧
    (findOrCreateFromGitHub store id d now).1.fullName = d.full_name ∧
    (findOrCreateFromGitHub store id d now).1.readme = r0.readme ∧
    (findOrCreateFromGitHub store id d now).1.languages = r0.languages ∧
    (findOrCreateFromGitHub store id d now).2.map (fun x => x.rid) =
      store.map (fun x => x.rid) := by
  have hg0 : r0.githubId = id := (mem_of_findByGithubId hf).2
  have hs1 : findOrCreateFromGitHub store id d now =
      (updateFromGitHub r0 d now,
       saveReplace store (updateFromGitHub r0 d now)) := by
    simp [findOrCreateFromGitHub, hf]
  rw [hs1]
  refine ⟨?_, ?_, ?_, ?_, ?_, ?_⟩
  · exact findByGithubId_saveReplace hnd hf (updateFromGitHub_rid r0 d now)
      (by simp [updateFromGitHub, hg0])
  · exact updateFromGitHub_rid r0 d now
  · rfl
  · rfl
  · rfl
  · exact rid_map_saveReplace store _

/-- Witness for C7: rename `staleCached` (empty `fullName`) to
`"acme/gadget"` via an upsert with the same GitHub id 42. -/
theorem identity_survives_rename_witness :
    findByGithubId (findOrCreateFromGitHub [staleCached] 42
        { dataAcme with full_name := "acme/gadget" } 9).2 42 =
      some (findOrCreateFromGitHub [staleCached] 42
        { dataAcme with full_name := "acme/gadget" } 9).1 ∧
    (findOrCreateFromGitHub [staleCached] 42
        { dataAcme with full_name := "acme/gadget" } 9).1.rid =
      staleCached.rid ∧
    (findOrCreateFromGitHub [staleCached] 42
        { dataAcme with full_name := "acme/gadget" } 9).1.fullName =
      ({ dataAcme with full_name := "acme/gadget" } : GithubData).full_name ∧
    (findOrCreateFromGitHub [staleCached] 42
        { dataAcme with full_name := "acme/gadget" } 9).1.readme =
      staleCached.readme ∧
    (findOrCreateFromGitHub [staleCached] 42
        { dataAcme with full_name := "acme/gadget" } 9).1.languages =
      staleCached.languages ∧
    (findOrCreateFromGitHub [staleCached] 42
        { dataAcme with full_name := "acme/gadget" } 9).2.map
        (fun x => x.rid) = [staleCached].map (fun x => x.rid) :=
  identity_survives_rename [staleCached] 42
    { dataAcme with full_name := "acme/gadget" } 9 staleCached
    (by simp) rfl (by decide)

/-- A text-index oracle in which every document matches with equal
relevance score (as Mongo produces for documents with identical matching
text). -/
def txtTie : TextIndex := { textMatch := fun _ _ => true, score := fun _ _ => 1 }

/-- A public snapshot with 5 stars, stored first. -/
def rLow : Repo := { newRepo 1 1 0 with stars := 5 }

/-- A public snapshot with 10 stars, stored second. -/
def rHigh : Repo := { newRepo 2 2 0 with stars := 10 }

/-- **C9 counterexample.**  `searchLocalRepos` sorts a queried search by
text score only — there is no secondary star-count key.  With two public
matching snapshots of equal score, stored low-stars first, the result keeps
store order `[rLow, rHigh]` (5 stars before 10), violating the claimed
"ordered by relevance score and then by star count descending". -/
theorem searchCached_counterexample :
    (searchLocalRepos txtTie [rLow, rHigh] (some "q") none 1 20).1 =
      [rLow, rHigh] ∧
    txtTie.score "q" rLow = txtTie.score "q" rHigh ∧
    rLow.stars < rHigh.stars := by
  refine ⟨rfl, rfl, by decide⟩

/-- **C9** (amended: cached search).  `searchLocalRepos` returns only
non-private snapshots matching the text query, paginated by
`skip = (page − 1) · limit` and `limit` over the sorted result set, which
for a non-empty query is ordered by relevance score descending only (ties
keep store order; star count is not a tiebreaker).  The model-level static
`searchRepos` does order by score then stars descending, but supports only
a `limit`, not page-based pagination. -/
theorem searchCached_properties :
    (∀ (txt : TextIndex) (store : Store) (q : String)
        (lang : Option String) (page limit : Nat) (r : Repo), q ≠ "" →
        r ∈ (searchLocalRepos txt store (some q) lang page limit).1 →
        r.isPrivate = false ∧ txt.textMatch q r = true)
  ∧ (∀ (txt : TextIndex) (store : Store) (query lang : Option String)
        (page limit : Nat),
        (searchLocalRepos txt store query lang page limit).1 =
          ((localSearchSorted txt store query lang).drop
            ((page - 1) * limit)).take limit)
  ∧ (∀ (txt : TextIndex) (store : Store) (q : String) (lang : Option String),
        q ≠ "" →
        (localSearchSorted txt store (some q) lang).Pairwise
          (fun a b => txt.score q b ≤ txt.score q a))
  ∧ (∀ (txt : TextIndex) (store : Store) (q : String) (lang : Option String)
        (lim : Option Nat) (r : Repo),
        r ∈ searchReposStatic txt store q lang lim →
        r.isPrivate = false ∧ txt.textMatch q r = true)
  ∧ (∀ (txt : TextIndex) (store : Store) (q : String) (lang : Option String)
        (lim : Option Nat),
        (searchReposStatic txt store q lang lim).Pairwise
          (fun a b => txt.score q b < txt.score q a ∨
            (txt.score q a = txt.score q b ∧ b.stars ≤ a.stars))) := by
  refine ⟨?_, ?_, ?_, ?_, ?_⟩
  · intro txt store q lang page limit r hq hr
    unfold searchLocalRepos at hr
    have hr2 := List.mem_of_mem_drop (List.mem_of_mem_take hr)
    rw [localSearchSorted] at hr2
    simp only [strFalsy, hq, decide_eq_true_eq, if_false] at hr2
    have hr3 := mem_insertionSortBy.mp hr2
    have := List.mem_filter.mp hr3
    rcases this with ⟨_, hb⟩
    simp only [strFalsy, Option.getD_some, Bool.and_eq_true, Bool.or_eq_true,
      Bool.not_eq_true', decide_eq_true_eq] at hb
    rcases hb with ⟨⟨hp, hm⟩, _⟩
    rcases hm with hm | hm
    · exact absurd hm hq
    · exact ⟨hp, hm⟩
  · intro txt store query lang page limit
    rfl
  · intro txt store q lang hq
    rw [localSearchSorted]
    simp only [strFalsy, hq, decide_eq_true_eq, if_false]
    have := @pairwise_insertionSortBy (leByScore txt q)
      (fun a b => by
        unfold leByScore
        rcases le_total (txt.score q b) (txt.score q a) with h | h
        · exact Or.inl (by simpa using h)
        · exact Or.inr (by simpa using h))
      (fun a b c hab hbc => by
        unfold leByScore at hab hbc ⊢
        simp only [decide_eq_true_eq] at hab hbc ⊢
        exact le_trans hbc hab)
      (localSearchFiltered txt store (some q) lang)
    exact this.imp (fun h => by simpa [leByScore] using h)
  · intro txt store q lang lim r hr
    unfold searchReposStatic at hr
    have hr2 := mem_insertionSortBy.mp (List.mem_of_mem_take hr)
    rcases List.mem_filter.mp hr2 with ⟨_, hb⟩
    simp only [Bool.and_eq_true, Bool.not_eq_true', decide_eq_true_eq] at hb
    exact ⟨hb.1.2, hb.1.1⟩
  · intro txt store q lang lim
    unfold searchReposStatic
    have htot : ∀ a b, leByScoreStars txt q a b = true ∨
        leByScoreStars txt q b a = true := by
      intro a b
      unfold leByScoreStars
      rcases lt_trichotomy (txt.score q a) (txt.score q b) with h | h | h
      · right; simp [h]
      · rcases le_total a.stars b.stars with hs | hs
        · right; simp [h, hs]
        · left; simp [h, hs]
      · left; simp [h]
    have htrans : ∀ a b c, leByScoreStars txt q a b = true →
        leByScoreStars txt q b c = true → leByScoreStars txt q a c = true := by
      intro a b c hab hbc
      unfold leByScoreStars at hab hbc ⊢
      simp only [Bool.or_eq_true, Bool.and_eq_true, decide_eq_true_eq]
        at hab hbc ⊢
      rcases hab with hab | ⟨hab1, hab2⟩
      · rcases hbc with hbc | ⟨hbc1, hbc2⟩
        · exact Or.inl (lt_trans hbc hab)
        · exact Or.inl (hbc1 ▸ hab)
      · rcases hbc with hbc | ⟨hbc1, hbc2⟩
        · exact Or.inl (by rw [hab1]; exact hbc)
        · exact Or.inr ⟨hab1.trans hbc1, le_trans hbc2 hab2⟩
    have hp := pairwise_insertionSortBy htot htrans
      (store.filter (fun r =>
        txt.textMatch q r && !r.isPrivate &&
        (strFalsy lang || r.language == some (lang.getD ""))))
    have hp2 := hp.sublist (List.take_sublist (jsNumOr lim 20) _)
    exact hp2.imp (fun h => by
      simpa [leByScoreStars, Bool.or_eq_true, Bool.and_eq_true,
        decide_eq_true_eq] using h)

/-- Witness for C9 (amended): applied to the constant-score index and a
one-snapshot store. -/
theorem searchCached_properties_witness :
    rLow.isPrivate = false ∧ txtTie.textMatch "q" rLow = true :=
  searchCached_properties.1 txtTie [rLow] "q" none 1 20 rLow (by decide)
    (by decide)

end DevMatch
